import Mathlib

/-!
Verification of the sales-funnel planning core (src/app.py).

The numeric model is exact rational arithmetic (ℚ) in place of Python
floats; Python `round` is round-half-to-even; the one failure mode of the
planner loop (division by zero when `conversion_rate = 0`) is modelled by
an `Except String` result.  Pandas/numpy series are `List ℚ` indexed by
period (the time column of the data frame is `arange total_periods`, so a
mask `time <= t` selects exactly the positions `i ≤ t`).
-/

set_option autoImplicit false

namespace SalesFunnel

/-- Funnel stages in order, from `stages = [...]` in src/app.py. -/
def stages : List String :=
  ["Expression of Interest", "Conversations", "Deep Conversations", "Proposals", "Wins"]

/-- Python `round` on an exact value: round half to even, from
`int(round(val))` in `create_funnel_plan`. -/
def round_half_even (q : ℚ) : ℤ :=
  if q - ⌊q⌋ < 1 / 2 then ⌊q⌋
  else if 1 / 2 < q - ⌊q⌋ then ⌊q⌋ + 1
  else if ⌊q⌋ % 2 = 0 then ⌊q⌋ else ⌊q⌋ + 1

/-- The multiplier loop of `create_funnel_plan`:
`for stage in reversed(stages): final_counts[stage] = target_wins * multiplier; multiplier /= conversion_rate`.
Python raises ZeroDivisionError at `multiplier /= conversion_rate` when the
rate is zero, hence the `Except`. -/
def finalCountsAuxE (r : ℚ) : List String → ℚ → ℤ → Except String (List (String × ℚ))
  | [], _, _ => .ok []
  | s :: rest, m, w =>
    if r = 0 then .error "ZeroDivisionError"
    else (finalCountsAuxE r rest (m / r) w).map (fun tail => (s, (w : ℚ) * m) :: tail)

/-- The same loop for a nonzero rate, where no division fails. -/
def finalCountsAux (r : ℚ) : List String → ℚ → ℤ → List (String × ℚ)
  | [], _, _ => []
  | s :: rest, m, w => (s, (w : ℚ) * m) :: finalCountsAux r rest (m / r) w

/-- Raw (unrounded) per-stage final counts, keyed by stage, in the order the
Python dict is built (Wins first). -/
def finalCountsRaw (r : ℚ) (w : ℤ) : List (String × ℚ) :=
  finalCountsAux r stages.reverse 1 w

/-- Rounded final counts: `{stage: int(round(val)) for stage, val in final_counts.items()}`. -/
def final_counts (r : ℚ) (w : ℤ) : List (String × ℤ) :=
  (finalCountsRaw r w).map (fun p => (p.1, round_half_even p.2))

/-- numpy `linspace(start, stop, num)` with endpoint: `num` evenly spaced
samples; for `num ≤ 1` no spacing is computed and the single sample (if any)
is `start`. -/
def linspace (start stop : ℚ) (num : ℕ) : List ℚ :=
  if num ≤ 1 then List.replicate num start
  else (List.range num).map (fun i : ℕ => start + (stop - start) * (i : ℚ) / ((num : ℚ) - 1))

/-- Time-axis label: `'Week' if duration == 'weekly' else 'Day'`. -/
def time_label (duration : String) : String :=
  if duration = "weekly" then "Week" else "Day"

/-- Planned series of one stage: `np.linspace(0, final_counts[stage], total_periods)`. -/
def planned_series (r : ℚ) (w : ℤ) (n : ℕ) (stage : String) : List ℚ :=
  linspace 0 ((((final_counts r w).lookup stage).getD 0 : ℤ) : ℚ) n

/-- Whole planner `create_funnel_plan(duration, total_periods, target_wins, conversion_rate)`:
the stage columns of the returned data frame plus the time label, or the
ZeroDivisionError the multiplier loop raises. -/
def create_funnel_plan (duration : String) (total_periods : ℕ) (target_wins : ℤ)
    (conversion_rate : ℚ) : Except String (List (String × List ℚ) × String) :=
  (finalCountsAuxE conversion_rate stages.reverse 1 target_wins).map (fun raw =>
    let fc := raw.map (fun p => (p.1, round_half_even p.2))
    (stages.map (fun s =>
      (s, linspace 0 (((fc.lookup s).getD 0 : ℤ) : ℚ) total_periods)), time_label duration))

/-- One pass of the actual-data loop for one stage over a series of length
`series.length`:
`linear_vals = np.linspace(0, val, t + 1) if t > 0 else [val]`,
`actual_df.loc[time <= t, stage] = linear_vals`,
`actual_df.loc[time > t, stage] = val`.
Every row is overwritten: row `i ≤ t` gets `linear_vals[i]` (positional
assignment, lengths agree when `t < series.length`), row `i > t` gets `val`. -/
def applyObs (t : ℕ) (val : ℤ) (series : List ℚ) : List ℚ :=
  let linear_vals : List ℚ := if 0 < t then linspace 0 (val : ℚ) (t + 1) else [(val : ℚ)]
  (List.range series.length).map (fun i =>
    if i ≤ t then linear_vals.getD i 0 else (val : ℚ))

/-- The module-level actual loop, restricted to one stage: start from the
all-zero column and apply each observation in input order. -/
def build_actual_stage (n : ℕ) (obsList : List (ℕ × ℤ)) : List ℚ :=
  obsList.foldl (fun s o => applyObs o.1 o.2 s) (List.replicate n 0)

/-- The module-level actual loop over all stages: each observation carries a
period index and a per-stage value mapping. -/
def build_actual_series (n : ℕ) (observations : List (ℕ × (String → ℤ)))
    (stage : String) : List ℚ :=
  build_actual_stage n (observations.map (fun o => (o.1, o.2 stage)))

/-! ### Helper lemmas -/

lemma round_half_even_floor_le (q : ℚ) : ⌊q⌋ ≤ round_half_even q := by
  unfold round_half_even
  split_ifs <;> omega

lemma round_half_even_le_floor_add_one (q : ℚ) : round_half_even q ≤ ⌊q⌋ + 1 := by
  unfold round_half_even
  split_ifs <;> omega

lemma round_half_even_intCast (n : ℤ) : round_half_even (n : ℚ) = n := by
  unfold round_half_even
  rw [Int.floor_intCast, sub_self]
  norm_num

lemma round_half_even_mono {a b : ℚ} (h : a ≤ b) :
    round_half_even a ≤ round_half_even b := by
  rcases le_or_lt (⌊a⌋ + 1) ⌊b⌋ with hf | hf
  · calc round_half_even a ≤ ⌊a⌋ + 1 := round_half_even_le_floor_add_one a
      _ ≤ ⌊b⌋ := hf
      _ ≤ round_half_even b := round_half_even_floor_le b
  · have hab : ⌊a⌋ = ⌊b⌋ := le_antisymm (Int.floor_le_floor h) (by omega)
    unfold round_half_even
    rw [← hab]
    split_ifs <;> first | omega | linarith

lemma round_half_even_nonneg {q : ℚ} (h : 0 ≤ q) : 0 ≤ round_half_even q := by
  have h1 := round_half_even_floor_le q
  have h2 : (0 : ℤ) ≤ ⌊q⌋ := Int.floor_nonneg.mpr h
  omega

lemma finalCountsAuxE_ok (r : ℚ) (hr : r ≠ 0) :
    ∀ (l : List String) (m : ℚ) (w : ℤ),
      finalCountsAuxE r l m w = .ok (finalCountsAux r l m w)
  | [], _, _ => rfl
  | s :: rest, m, w => by
    rw [finalCountsAuxE, finalCountsAux, if_neg hr, finalCountsAuxE_ok r hr rest (m / r) w]
    rfl

lemma final_counts_explicit (r : ℚ) (w : ℤ) :
    final_counts r w =
      [("Wins", round_half_even (w : ℚ)),
       ("Proposals", round_half_even ((w : ℚ) * (1 / r) ^ 1)),
       ("Deep Conversations", round_half_even ((w : ℚ) * (1 / r) ^ 2)),
       ("Conversations", round_half_even ((w : ℚ) * (1 / r) ^ 3)),
       ("Expression of Interest", round_half_even ((w : ℚ) * (1 / r) ^ 4))] := by
  have h0 : (w : ℚ) * 1 = (w : ℚ) := mul_one _
  have h1 : (w : ℚ) * ((1 : ℚ) / r) = (w : ℚ) * (1 / r) ^ 1 := by ring
  have h2 : (w : ℚ) * ((1 : ℚ) / r / r) = (w : ℚ) * (1 / r) ^ 2 := by ring
  have h3 : (w : ℚ) * ((1 : ℚ) / r / r / r) = (w : ℚ) * (1 / r) ^ 3 := by ring
  have h4 : (w : ℚ) * ((1 : ℚ) / r / r / r / r) = (w : ℚ) * (1 / r) ^ 4 := by ring
  show [("Wins", round_half_even ((w : ℚ) * 1)),
        ("Proposals", round_half_even ((w : ℚ) * ((1 : ℚ) / r))),
        ("Deep Conversations", round_half_even ((w : ℚ) * ((1 : ℚ) / r / r))),
        ("Conversations", round_half_even ((w : ℚ) * ((1 : ℚ) / r / r / r))),
        ("Expression of Interest",
          round_half_even ((w : ℚ) * ((1 : ℚ) / r / r / r / r)))] = _
  rw [h0, h1, h2, h3, h4]

lemma final_counts_lookup_stage (r : ℚ) (w : ℤ) (i : ℕ) (hi : i < 5) :
    (final_counts r w).lookup (stages.getD i "") =
      some (round_half_even ((w : ℚ) * (1 / r) ^ (4 - i))) := by
  rw [final_counts_explicit]
  interval_cases i <;> simp [stages, List.lookup]

lemma lookup_getD_nonneg (l : List (String × ℤ)) (h : ∀ p ∈ l, 0 ≤ p.2) (s : String) :
    0 ≤ (l.lookup s).getD 0 := by
  induction l with
  | nil => simp [List.lookup]
  | cons p rest ih =>
    rcases p with ⟨k, v⟩
    by_cases hkv : s == k
    · have hl : List.lookup s ((k, v) :: rest) = some v := by
        simp [List.lookup, hkv]
      rw [hl]
      simpa using h (k, v) (List.mem_cons_self _ _)
    · have hl : List.lookup s ((k, v) :: rest) = List.lookup s rest := by
        simp only [List.lookup]
        rw [Bool.not_eq_true] at hkv
        rw [hkv]
      rw [hl]
      exact ih fun q hq => h q (List.mem_cons_of_mem _ hq)

lemma final_counts_lookup_nonneg (r : ℚ) (hr0 : 0 < r) (w : ℤ) (hw : 0 ≤ w)
    (stage : String) : 0 ≤ ((final_counts r w).lookup stage).getD 0 := by
  rw [final_counts_explicit]
  apply lookup_getD_nonneg
  intro p hp
  have hcast : (0 : ℚ) ≤ (w : ℚ) := by exact_mod_cast hw
  have hinv : (0 : ℚ) ≤ 1 / r := le_of_lt (div_pos one_pos hr0)
  simp only [List.mem_cons, List.not_mem_nil, or_false] at hp
  rcases hp with h | h | h | h | h <;> subst h
  · exact round_half_even_nonneg hcast
  all_goals exact round_half_even_nonneg (mul_nonneg hcast (pow_nonneg hinv _))

lemma range_map_getD (n : ℕ) (f : ℕ → ℚ) (i : ℕ) (hi : i < n) (d : ℚ) :
    ((List.range n).map f).getD i d = f i := by
  rw [List.getD_eq_getElem?_getD, List.getElem?_map, List.getElem?_range hi]
  rfl

lemma linspace_length (a b : ℚ) (n : ℕ) : (linspace a b n).length = n := by
  unfold linspace
  split_ifs <;> simp

lemma linspace_getD (K : ℚ) (n : ℕ) (hn : 2 ≤ n) (i : ℕ) (hi : i < n) :
    (linspace 0 K n).getD i 0 = K * i / ((n : ℚ) - 1) := by
  unfold linspace
  rw [if_neg (by omega), range_map_getD n _ i hi]
  ring

lemma applyObs_length (t : ℕ) (v : ℤ) (s : List ℚ) :
    (applyObs t v s).length = s.length := by
  simp [applyObs]

lemma applyObs_congr_length (t : ℕ) (v : ℤ) {s s' : List ℚ} (h : s.length = s'.length) :
    applyObs t v s = applyObs t v s' := by
  simp only [applyObs, h]

lemma foldl_applyObs_length (obsList : List (ℕ × ℤ)) (s : List ℚ) :
    (obsList.foldl (fun s o => applyObs o.1 o.2 s) s).length = s.length := by
  induction obsList generalizing s with
  | nil => rfl
  | cons o rest ih => rw [List.foldl_cons, ih, applyObs_length]

lemma create_funnel_plan_ok (d : String) (n : ℕ) (w : ℤ) (r : ℚ) (hr : r ≠ 0) :
    create_funnel_plan d n w r =
      .ok (stages.map (fun s => (s, planned_series r w n s)), time_label d) := by
  unfold create_funnel_plan
  rw [finalCountsAuxE_ok r hr]
  rfl

lemma build_actual_series_single (n t : ℕ) (vals : String → ℤ) (stage : String) :
    build_actual_series n [(t, vals)] stage = build_actual_stage n [(t, vals stage)] := rfl

lemma build_actual_single_getD (n t : ℕ) (v : ℤ) (i : ℕ) (hi : i < n) :
    (build_actual_stage n [(t, v)]).getD i 0 =
      if i ≤ t then (if 0 < t then (v : ℚ) * i / t else (v : ℚ)) else (v : ℚ) := by
  unfold build_actual_stage
  rw [List.foldl_cons, List.foldl_nil]
  simp only [applyObs]
  rw [List.length_replicate, range_map_getD n _ i hi]
  by_cases hit : i ≤ t
  · rw [if_pos hit, if_pos hit]
    by_cases htpos : 0 < t
    · rw [if_pos htpos, if_pos htpos,
        linspace_getD (v : ℚ) (t + 1) (by omega) i (by omega)]
      push_cast
      ring_nf
    · rw [if_neg htpos, if_neg htpos]
      have hi0 : i = 0 := by omega
      subst hi0
      rfl
  · rw [if_neg hit, if_neg hit]

/-! ### Claim theorems -/

/-- Claim C1: for every target_wins w and conversion_rate r > 0 the planner gives
the stage at 0-based position i the final target round(w * (1/r)^(4-i)) — the
exponent 4 - i is the number of stage-transitions from that stage to Wins — with
half-to-even rounding applied once to the exact multiplier chain, never mid-chain,
and in particular gives Wins the target w itself. -/
theorem final_targets_formula (w : ℤ) (r : ℚ) (hr : 0 < r) (i : ℕ) (hi : i < 5) :
    (final_counts r w).lookup (stages.getD i "") =
      some (round_half_even ((w : ℚ) * (1 / r) ^ (4 - i))) ∧
    (final_counts r w).lookup "Wins" = some w := by
  refine ⟨final_counts_lookup_stage r w i hi, ?_⟩
  rw [final_counts_explicit]
  simp [List.lookup, round_half_even_intCast]

/-- Claim C1 witness: at target_wins 7, conversion_rate 1/3, stage position 2
(Deep Conversations, two transitions from Wins) the targets are as the formula says. -/
theorem final_targets_formula_witness :
    ((0 : ℚ) < 1/3) ∧ (2 : ℕ) < 5 ∧
    ((final_counts (1/3) 7).lookup (stages.getD 2 "") =
        some (round_half_even (((7 : ℤ) : ℚ) * (1 / (1/3 : ℚ)) ^ (4 - 2))) ∧
      (final_counts (1/3) 7).lookup "Wins" = some 7) :=
  ⟨by norm_num, by norm_num,
    final_targets_formula 7 (1/3) (by norm_num) 2 (by norm_num)⟩

/-- Claim C2: the actual-series loop is last-write-wins per stage across the whole
period axis: appending a final observation makes every earlier observation
irrelevant, the result equals applying only that last observation to the all-zero
series. -/
theorem actual_series_last_write_wins (n : ℕ) (earlier : List (ℕ × (String → ℤ)))
    (t : ℕ) (vals : String → ℤ) (hb : ∀ o ∈ earlier, o.1 < n) (ht : t < n)
    (stage : String) :
    build_actual_series n (earlier ++ [(t, vals)]) stage =
      build_actual_series n [(t, vals)] stage := by
  unfold build_actual_series build_actual_stage
  rw [List.map_append, List.foldl_append]
  simp only [List.map_cons, List.map_nil, List.foldl_cons, List.foldl_nil]
  apply applyObs_congr_length
  rw [foldl_applyObs_length, List.length_replicate]

/-- Claim C2 witness: over a 4-period axis, an observation at period 1 followed by
one at period 2 yields the same Wins series as the period-2 observation alone. -/
theorem actual_series_last_write_wins_witness :
    (∀ o ∈ [(((1 : ℕ), fun _ => (3 : ℤ)) : ℕ × (String → ℤ))], o.1 < 4) ∧
    (2 : ℕ) < 4 ∧
    build_actual_series 4 ([(1, fun _ => 3)] ++ [(2, fun _ => 5)]) "Wins" =
      build_actual_series 4 [(2, fun _ => 5)] "Wins" := by
  refine ⟨?_, by norm_num, ?_⟩
  · intro o ho
    rw [List.mem_singleton] at ho
    subst ho
    norm_num
  · exact actual_series_last_write_wins 4 [(1, fun _ => 3)] 2 (fun _ => 5)
      (by intro o ho; rw [List.mem_singleton] at ho; subst ho; norm_num)
      (by norm_num) "Wins"

/-- Claim C3: applying one observation (t, stage_values) to the all-zero series
over periods 0..n-1: for every stage, if t > 0 the periods i ≤ t get the linearly
spaced sample value * i / t (t+1 samples from 0 to the observed value inclusive),
if t = 0 period 0 gets exactly the observed value, and every period i > t gets the
flat observed value; in particular one observation (t = 5, value 10) on a 10-period
axis gives [0, 2, 4, 6, 8, 10, 10, 10, 10, 10]. -/
theorem actual_series_single_observation (n t : ℕ) (vals : String → ℤ)
    (stage : String) (ht : t < n) :
    (build_actual_series n [(t, vals)] stage).length = n ∧
    (0 < t → ∀ i, i ≤ t →
      (build_actual_series n [(t, vals)] stage).getD i 0 = (vals stage : ℚ) * i / t) ∧
    (t = 0 → (build_actual_series n [(t, vals)] stage).getD 0 0 = (vals stage : ℚ)) ∧
    (∀ i, t < i → i < n →
      (build_actual_series n [(t, vals)] stage).getD i 0 = (vals stage : ℚ)) ∧
    build_actual_series 10 [(5, fun _ => 10)] stage =
      [0, 2, 4, 6, 8, 10, 10, 10, 10, 10] := by
  refine ⟨?_, ?_, ?_, ?_, ?_⟩
  · rw [build_actual_series_single]
    unfold build_actual_stage
    rw [List.foldl_cons, List.foldl_nil, applyObs_length, List.length_replicate]
  · intro htpos i hit
    rw [build_actual_series_single,
      build_actual_single_getD n t (vals stage) i (by omega), if_pos hit, if_pos htpos]
  · intro ht0
    subst ht0
    rw [build_actual_series_single, build_actual_single_getD n 0 (vals stage) 0 (by omega)]
    norm_num
  · intro i hti hin
    rw [build_actual_series_single, build_actual_single_getD n t (vals stage) i hin,
      if_neg (by omega)]
  · show build_actual_stage 10 [(5, 10)] = _
    norm_num [build_actual_stage, applyObs, linspace, List.range_succ, List.replicate]

/-- Claim C3 witness: the single observation (t = 5, value 10) over 10 periods
yields a 10-sample series. -/
theorem actual_series_single_observation_witness :
    (5 : ℕ) < 10 ∧
    (build_actual_series 10 [(5, fun _ => (10 : ℤ))] "Wins").length = 10 :=
  ⟨by norm_num,
    (actual_series_single_observation 10 5 (fun _ => (10 : ℤ)) "Wins" (by norm_num)).1⟩

/-- Claim C4 (amended; counterexample in a separate theorem): the planner performs
no domain validation at all: for every nonzero conversion_rate — negative included —
and every target_wins — negative included — it succeeds and returns the computed
plan; no DomainError is raised and nothing is clamped.  The only failing input is
conversion_rate = 0, which surfaces as the ZeroDivisionError of the multiplier
loop, not as a DomainError. -/
theorem planner_no_validation (d : String) (n : ℕ) (w : ℤ) (r : ℚ) (hr : r ≠ 0) :
    create_funnel_plan d n w r =
      .ok (stages.map (fun s => (s, planned_series r w n s)), time_label d) :=
  create_funnel_plan_ok d n w r hr

/-- Claim C4 witness: a planner run with negative target_wins and negative
conversion_rate still succeeds. -/
theorem planner_no_validation_witness :
    ((-(1/2) : ℚ) ≠ 0) ∧
    create_funnel_plan "daily" 3 (-2) (-(1/2)) =
      .ok (stages.map (fun s => (s, planned_series (-(1/2)) (-2) 3 s)),
        time_label "daily") :=
  ⟨by norm_num, planner_no_validation "daily" 3 (-2) (-(1/2)) (by norm_num)⟩

/-- Claim C4 counterexample: with target_wins = -1 (< 0) and conversion_rate = 1/2
the planner does not fail with any error: it returns a full plan built from the
negative target, whose final counts are all negative and whose Wins series ramps
down to -1. -/
theorem planner_accepts_negative_target :
    create_funnel_plan "weekly" 5 (-1) (1/2) =
      .ok (stages.map (fun s => (s, planned_series (1/2) (-1) 5 s)), "Week") ∧
    final_counts (1/2) (-1) =
      [("Wins", -1), ("Proposals", -2), ("Deep Conversations", -4),
       ("Conversations", -8), ("Expression of Interest", -16)] ∧
    planned_series (1/2) (-1) 5 "Wins" =
      [0, -(1/4 : ℚ), -(1/2 : ℚ), -(3/4 : ℚ), -1] := by
  refine ⟨?_, ?_, ?_⟩
  · rw [create_funnel_plan_ok "weekly" 5 (-1) (1/2) (by norm_num)]
    rfl
  · rw [final_counts_explicit]
    have e1 : ((-1 : ℤ) : ℚ) * (1 / (1/2 : ℚ)) ^ 1 = ((-2 : ℤ) : ℚ) := by norm_num
    have e2 : ((-1 : ℤ) : ℚ) * (1 / (1/2 : ℚ)) ^ 2 = ((-4 : ℤ) : ℚ) := by norm_num
    have e3 : ((-1 : ℤ) : ℚ) * (1 / (1/2 : ℚ)) ^ 3 = ((-8 : ℤ) : ℚ) := by norm_num
    have e4 : ((-1 : ℤ) : ℚ) * (1 / (1/2 : ℚ)) ^ 4 = ((-16 : ℤ) : ℚ) := by norm_num
    rw [e1, e2, e3, e4, round_half_even_intCast, round_half_even_intCast,
      round_half_even_intCast, round_half_even_intCast, round_half_even_intCast]
  · norm_num [planned_series, final_counts, finalCountsRaw, finalCountsAux, stages,
      round_half_even, List.lookup, linspace, List.range_succ]

/-- Claim C5 (amended; counterexample in a separate theorem): for total_periods = 1
the planned series of every stage is the single sample [0] — the start of the ramp,
not the stage's final target — and no division by zero occurs (the spacing branch is
never taken for a one-sample series). -/
theorem single_period_planned_series (r : ℚ) (w : ℤ) (stage : String) :
    planned_series r w 1 stage = [0] := by
  simp [planned_series, linspace]

/-- Claim C5 counterexample: with target_wins = 4, conversion_rate = 1/2 and
total_periods = 1 the Wins final target is 4, yet the single-sample planned series
is [0], not [4]. -/
theorem single_period_counterexample :
    planned_series (1/2) 4 1 "Wins" = [0] ∧
    (final_counts (1/2) 4).lookup "Wins" = some 4 ∧
    ((0 : ℚ) ≠ ((4 : ℤ) : ℚ)) := by
  refine ⟨?_, ?_, by norm_num⟩
  · simp [planned_series, linspace]
  · norm_num [final_counts, finalCountsRaw, finalCountsAux, stages, round_half_even,
      List.lookup]

/-- Claim C6: for every total_periods ≥ 2 every stage's planned series starts at
sample 0 and ends exactly at that stage's final target, with no drift. -/
theorem planned_series_endpoints (r : ℚ) (w : ℤ) (n : ℕ) (hn : 2 ≤ n)
    (stage : String) :
    (planned_series r w n stage).getD 0 0 = 0 ∧
    (planned_series r w n stage).getD (n - 1) 0 =
      ((((final_counts r w).lookup stage).getD 0 : ℤ) : ℚ) := by
  have hne : ((n : ℚ) - 1) ≠ 0 := by
    have h2 : (2 : ℚ) ≤ (n : ℚ) := by exact_mod_cast hn
    linarith
  constructor
  · rw [planned_series, linspace_getD _ n hn 0 (by omega)]
    simp
  · rw [planned_series, linspace_getD _ n hn (n - 1) (by omega)]
    rw [Nat.cast_sub (by omega : 1 ≤ n), Nat.cast_one, mul_div_assoc,
      div_self hne, mul_one]

/-- Claim C6 witness: with the concrete plan (target_wins 4, rate 1/2, 5 periods)
the Wins series starts at 0 and ends at the Wins target. -/
theorem planned_series_endpoints_witness :
    (2 : ℕ) ≤ 5 ∧
    ((planned_series (1/2) 4 5 "Wins").getD 0 0 = 0 ∧
      (planned_series (1/2) 4 5 "Wins").getD (5 - 1) 0 =
        ((((final_counts (1/2) 4).lookup "Wins").getD 0 : ℤ) : ℚ)) :=
  ⟨by norm_num, planned_series_endpoints (1/2) 4 5 (by norm_num) "Wins"⟩

/-- Claim C7: for conversion_rate in (0, 1] and target_wins ≥ 1 the Wins target is
exactly target_wins and each upstream stage's target is at least its downstream
neighbour's target — the funnel narrows toward Wins. -/
theorem final_targets_funnel_narrows (r : ℚ) (hr0 : 0 < r) (hr1 : r ≤ 1)
    (w : ℤ) (hw : 1 ≤ w) :
    (final_counts r w).lookup "Wins" = some w ∧
    ∀ i : ℕ, i + 1 < 5 →
      ((final_counts r w).lookup (stages.getD (i + 1) "")).getD 0 ≤
        ((final_counts r w).lookup (stages.getD i "")).getD 0 := by
  have hwq : (0 : ℚ) ≤ (w : ℚ) := by exact_mod_cast (by omega : (0 : ℤ) ≤ w)
  have h1r : (1 : ℚ) ≤ 1 / r := by
    rw [le_div_iff hr0, one_mul]
    exact hr1
  have key : ∀ a b : ℕ, a ≤ b →
      round_half_even ((w : ℚ) * (1 / r) ^ a) ≤
        round_half_even ((w : ℚ) * (1 / r) ^ b) := fun a b hab =>
    round_half_even_mono (mul_le_mul_of_nonneg_left (pow_le_pow_right h1r hab) hwq)
  constructor
  · rw [final_counts_explicit]
    simp [List.lookup, round_half_even_intCast]
  · intro i hi
    rw [final_counts_lookup_stage r w (i + 1) (by omega),
      final_counts_lookup_stage r w i (by omega)]
    simp only [Option.getD_some]
    exact key _ _ (by omega)

/-- Claim C7 witness: at conversion_rate 1/3 and target_wins 2 the Wins target is 2
and the Conversations target dominates the Deep Conversations target. -/
theorem final_targets_funnel_narrows_witness :
    ((0 : ℚ) < 1/3) ∧ ((1/3 : ℚ) ≤ 1) ∧ ((1 : ℤ) ≤ 2) ∧
    (final_counts (1/3) 2).lookup "Wins" = some 2 ∧
    ((final_counts (1/3) 2).lookup (stages.getD (1 + 1) "")).getD 0 ≤
      ((final_counts (1/3) 2).lookup (stages.getD 1 "")).getD 0 := by
  have h := final_targets_funnel_narrows (1/3) (by norm_num) (by norm_num) 2 (by norm_num)
  exact ⟨by norm_num, by norm_num, by norm_num, h.1, h.2 1 (by norm_num)⟩

/-- Claim C8: for a valid configuration (conversion_rate in (0, 1], target_wins ≥ 1)
every stage's planned series is monotonically non-decreasing along the period
axis. -/
theorem planned_series_monotone (r : ℚ) (hr0 : 0 < r) (hr1 : r ≤ 1) (w : ℤ)
    (hw : 1 ≤ w) (n : ℕ) (stage : String) (i : ℕ) (hi : i + 1 < n) :
    (planned_series r w n stage).getD i 0 ≤
      (planned_series r w n stage).getD (i + 1) 0 := by
  have hn : 2 ≤ n := by omega
  have hK : (0 : ℤ) ≤ ((final_counts r w).lookup stage).getD 0 :=
    final_counts_lookup_nonneg r hr0 w (by omega) stage
  have hKq : (0 : ℚ) ≤ ((((final_counts r w).lookup stage).getD 0 : ℤ) : ℚ) := by
    exact_mod_cast hK
  have hpos : (0 : ℚ) < (n : ℚ) - 1 := by
    have h2 : (2 : ℚ) ≤ (n : ℚ) := by exact_mod_cast hn
    linarith
  rw [planned_series, linspace_getD _ n hn i (by omega),
    linspace_getD _ n hn (i + 1) (by omega), div_le_div_right hpos]
  exact mul_le_mul_of_nonneg_left (by exact_mod_cast Nat.le_succ i) hKq

/-- Claim C8 witness: the Wins series of the concrete plan is non-decreasing from
period 2 to period 3. -/
theorem planned_series_monotone_witness :
    ((0 : ℚ) < 1/2) ∧ ((1/2 : ℚ) ≤ 1) ∧ ((1 : ℤ) ≤ 4) ∧ (2 + 1 : ℕ) < 5 ∧
    (planned_series (1/2) 4 5 "Wins").getD 2 0 ≤
      (planned_series (1/2) 4 5 "Wins").getD (2 + 1) 0 :=
  ⟨by norm_num, by norm_num, by norm_num, by norm_num,
    planned_series_monotone (1/2) (by norm_num) (by norm_num) 4 (by norm_num) 5
      "Wins" 2 (by norm_num)⟩

/-- Claim C9: with target_wins = 4, conversion_rate = 1/2, total_periods = 5 the
final targets are Wins 4, Proposals 8, Deep Conversations 16, Conversations 32,
Expression of Interest 64, and the planned Wins series is [0, 1, 2, 3, 4]. -/
theorem concrete_scenario_targets_and_series :
    final_counts (1/2) 4 = [("Wins", 4), ("Proposals", 8), ("Deep Conversations", 16),
      ("Conversations", 32), ("Expression of Interest", 64)] ∧
    planned_series (1/2) 4 5 "Wins" = [0, 1, 2, 3, 4] := by
  constructor
  · norm_num [final_counts, finalCountsRaw, finalCountsAux, stages, round_half_even]
  · norm_num [planned_series, final_counts, finalCountsRaw, finalCountsAux, stages,
      round_half_even, List.lookup, linspace, List.range_succ]

/-- Claim C10: the time-axis label is "Week" exactly when the duration string is
"weekly"; every other duration — "daily", but also unrecognized strings such as
"Weekly" or "week" — yields "Day", never an error. -/
theorem time_label_weekly_iff (d : String) :
    (time_label d = "Week" ↔ d = "weekly") ∧
    time_label d = (if d = "weekly" then "Week" else "Day") ∧
    time_label "daily" = "Day" ∧ time_label "Weekly" = "Day" ∧
    time_label "week" = "Day" := by
  unfold time_label
  refine ⟨?_, rfl, by decide, by decide, by decide⟩
  by_cases h : d = "weekly"
  · rw [if_pos h]
    simp [h]
  · rw [if_neg h]
    exact iff_of_false (by decide) h

end SalesFunnel
